import Mathlib

/-!
Shallow embedding of the podcast-platform backend (src/server.js).

Mongo documents become Lean structures; each Express route handler becomes a
pure state-transition function returning its HTTP-level result together with
the updated database state.  Binary buffers are lists of byte values; Mongo
object identifiers are opaque strings; the caller-supplied clock of the spec
appears as an explicit calendar-date argument.
-/

/-- A stored video document, after `videoSchema` (src/server.js lines 27-35).
The `views` field defaults to 0 on creation. -/
structure Video where
  _id : String
  podcastName : String
  category : String
  filename : String
  contentType : String
  video : List Nat
  views : Nat
deriving DecidableEq

/-- A stored user document, after `userSchema` (src/server.js lines 18-24).
`favorites` holds references to videos by identifier. -/
structure User where
  email : String
  password : String
  role : String
  favorites : List String
deriving DecidableEq

/-- One signup-histogram entry, after the `signupHistory` element shape of
`statsSchema` (src/server.js line 71).  The handler compares entries by the
calendar-date part of the stored timestamp, so the embedding stores the
calendar date directly. -/
structure HistEntry where
  date : String
  count : Nat
deriving DecidableEq

/-- The statistics singleton, after `statsSchema` (src/server.js lines 68-74). -/
structure Stats where
  totalSignups : Nat
  totalViews : Nat
  signupHistory : List HistEntry
deriving DecidableEq

/-- The whole database state.  `initializeStats` (src/server.js lines 77-83)
guarantees the Stats singleton exists, so it is carried as a plain field.
`nextId` feeds the fresh-identifier generator standing in for MongoDB object
identifier assignment. -/
structure ServerState where
  videos : List Video
  users : List User
  stats : Stats
  nextId : Nat
deriving DecidableEq

/-- The empty initial state produced by `initializeStats`:
no videos, no users, all counters zero, empty histogram. -/
def initState : ServerState :=
  { videos := [], users := [], stats := ⟨0, 0, []⟩, nextId := 0 }

/-- Fresh identifier generator standing in for MongoDB object id assignment. -/
def genId (n : Nat) : String := toString n

/-- Whitespace characters, modelling the regex character class for
whitespace used in `validateInput` (src/server.js line 62). -/
def isWs (c : Char) : Bool := c == ' ' || c == '\t' || c == '\n' || c == '\r'

/-- The email test of `validateInput` (src/server.js line 62): the anchored
regex demands no whitespace, exactly one at-sign with nonempty parts on both
sides, and a dot in the domain that is neither its first nor last
character. -/
def validEmailChars (email : List Char) : Bool :=
  email.all (fun c => !(isWs c) && true) &&
  (match email.splitOn '@' with
   | [l, d] => !l.isEmpty && !d.isEmpty && ((d.drop 1).dropLast.contains '.')
   | _ => false)

/-- `validateInput` (src/server.js lines 61-65): email must match the regex
and the password must have at least 6 characters. -/
def validateInput (email password : String) : Bool :=
  validEmailChars email.toList && decide (6 ≤ password.length)

/-- Password hashing is an external collaborator (bcrypt); modelled as an
opaque tagging function. -/
def bcryptHash (password : String) : String := "hashed:" ++ password

/-- Update of the first element of a list satisfying a predicate; models a
Mongoose document fetched by a query being mutated and saved back. -/
def updateFirst {α : Type} (p : α → Bool) (f : α → α) : List α → List α
  | [] => []
  | x :: xs => if p x then f x :: xs else x :: updateFirst p f xs

/-- The signup-history update of the signup handler (src/server.js lines
106-113): find the first histogram entry for today's calendar date; if
present increment its count, otherwise append a new entry with count 1. -/
def updateHistory (h : List HistEntry) (today : String) : List HistEntry :=
  match h with
  | [] => [⟨today, 1⟩]
  | e :: rest =>
      if e.date == today then ⟨e.date, e.count + 1⟩ :: rest
      else e :: updateHistory rest today

/-- Result of the signup route. -/
inductive SignupResult where
  | badRequest
  | serverError
  | ok (role : String)
deriving DecidableEq

/-- The signup handler (src/server.js lines 86-123).  Invalid input is
rejected with 400 before anything is persisted.  Saving a user whose email
is already registered violates the unique index and lands in the catch
block with 500, before any Stats mutation.  On success the user is stored,
`totalSignups` is incremented and the signup history is updated for the
caller-supplied calendar date `today`. -/
def signup (s : ServerState) (email password role today : String) :
    SignupResult × ServerState :=
  if validateInput email password = false then (.badRequest, s)
  else if s.users.any (fun u => u.email == email) then (.serverError, s)
  else
    let newUser : User := ⟨email, bcryptHash password, role, []⟩
    let st := s.stats
    let st2 : Stats :=
      ⟨st.totalSignups + 1, st.totalViews, updateHistory st.signupHistory today⟩
    (.ok role, { s with users := s.users ++ [newUser], stats := st2 })

/-- Result of the toggle-favorite route.  The handler never produces
`notFound`: that constructor exists to state the specification's claimed
behaviour. -/
inductive ToggleResult where
  | notFound
  | serverError
  | ok (favorites : List String)
deriving DecidableEq

/-- The favorites flip of the toggle handler (src/server.js lines 166-172):
remove the identifier if present, append it otherwise. -/
def toggleList (favorites : List String) (videoId : String) : List String :=
  if favorites.contains videoId then favorites.filter (fun id => id != videoId)
  else favorites ++ [videoId]

/-- The toggle-favorite handler (src/server.js lines 154-180).  The user is
looked up by email; when absent, the null dereference inside the try block
is caught and answered with 500 (`serverError`), leaving the state
untouched.  The video identifier is never looked up in the video store. -/
def toggleFavorite (s : ServerState) (userId videoId : String) :
    ToggleResult × ServerState :=
  match s.users.find? (fun u => u.email == userId) with
  | none => (.serverError, s)
  | some u =>
      let favs := toggleList u.favorites videoId
      (.ok favs,
        { s with
            users := updateFirst (fun w => w.email == userId)
              (fun w => { w with favorites := toggleList w.favorites videoId })
              s.users })

/-- The upload handler (src/server.js lines 183-206): persists a new video
document with the submitted metadata, content type and payload buffer and a
view counter of 0, under a fresh identifier. -/
def uploadVideo (s : ServerState)
    (podcastName category filename contentType : String) (payload : List Nat) :
    String × ServerState :=
  let v : Video :=
    ⟨genId s.nextId, podcastName, category, filename, contentType, payload, 0⟩
  (genId s.nextId, { s with videos := s.videos ++ [v], nextId := s.nextId + 1 })

/-- Result of the video-fetch route. -/
inductive FetchResult where
  | notFound
  | ok (contentType : String) (payload : List Nat)
deriving DecidableEq

/-- The view counter of the video with the given identifier, when the video
exists. -/
def videoViews (s : ServerState) (id : String) : Option Nat :=
  (s.videos.find? (fun v => v._id == id)).map (fun v => v.views)

/-- The video-fetch handler (src/server.js lines 232-256): a missing video
answers 404 with no mutation at all; otherwise the video's own view counter
and the global `totalViews` are incremented and the stored content type and
payload are served. -/
def fetchVideo (s : ServerState) (id : String) : FetchResult × ServerState :=
  match s.videos.find? (fun v => v._id == id) with
  | none => (.notFound, s)
  | some v =>
      let st := s.stats
      (.ok v.contentType v.video,
       { s with
           videos := updateFirst (fun w => w._id == id)
             (fun w => { w with views := w.views + 1 }) s.videos,
           stats := ⟨st.totalSignups, st.totalViews + 1, st.signupHistory⟩ })

/-- The homepage handler (src/server.js lines 259-264): increments the global
`totalViews` counter and serves the index page; no per-video counter is
touched. -/
def recordHomepageView (s : ServerState) : ServerState :=
  let st := s.stats
  { s with stats := ⟨st.totalSignups, st.totalViews + 1, st.signupHistory⟩ }

/-- One record of the video-listing responses: the projection
`filename podcastName _id` of src/server.js lines 211 and 223 yields exactly
the identifier, the file name and the podcast name. -/
structure VideoListItem where
  _id : String
  filename : String
  podcastName : String
deriving DecidableEq

/-- The projection applied to each listed video (src/server.js lines 211 and
223). -/
def projectVideo (v : Video) : VideoListItem :=
  ⟨v._id, v.filename, v.podcastName⟩

/-- The field names selected by the listing projection string
`filename podcastName _id` (src/server.js lines 211 and 223). -/
def listProjectionFields : List String := ["filename", "podcastName", "_id"]

/-- The field names the specification says a listing record carries. -/
def specListFields : List String := ["id", "name", "category"]

/-- The two listing handlers (src/server.js lines 209-229): all videos, or
the videos of one category, each projected to metadata; nothing is
mutated. -/
def listVideosOp (s : ServerState) (categoryFilter : Option String) :
    List VideoListItem × ServerState :=
  match categoryFilter with
  | none => (s.videos.map projectVideo, s)
  | some c => ((s.videos.filter (fun v => v.category == c)).map projectVideo, s)

/-- One engine operation, for reasoning about operation sequences.  Login,
listing and statistics reads do not mutate the database. -/
inductive Op where
  | signupOp (email password role today : String)
  | loginOp (email password : String)
  | toggleFavOp (userId videoId : String)
  | uploadOp (podcastName category filename contentType : String)
      (payload : List Nat)
  | listVidsOp (categoryFilter : Option String)
  | fetchVidOp (id : String)
  | homepageOp
  | getStatsOp
deriving DecidableEq

/-- The state transition of one operation. -/
def applyOp (s : ServerState) (op : Op) : ServerState :=
  match op with
  | .signupOp e p r d => (signup s e p r d).2
  | .loginOp _ _ => s
  | .toggleFavOp u v => (toggleFavorite s u v).2
  | .uploadOp n c fn ct pl => (uploadVideo s n c fn ct pl).2
  | .listVidsOp f => (listVideosOp s f).2
  | .fetchVidOp id => (fetchVideo s id).2
  | .homepageOp => recordHomepageView s
  | .getStatsOp => s

/-- Sequential execution of a list of operations. -/
def execTrace (s : ServerState) : List Op → ServerState
  | [] => s
  | op :: rest => execTrace (applyOp s op) rest

/-- Whether one operation is a successful view-recording call in the given
state: a fetch of an existing video, or a homepage visit. -/
def isViewSuccess (s : ServerState) (op : Op) : Bool :=
  match op with
  | .fetchVidOp id => s.videos.any (fun v => v._id == id)
  | .homepageOp => true
  | _ => false

/-- Number of successful view-recording calls along a trace. -/
def viewSuccesses (s : ServerState) : List Op → Nat
  | [] => 0
  | op :: rest =>
      (if isViewSuccess s op then 1 else 0) + viewSuccesses (applyOp s op) rest

/-- Sum of the per-video view counters. -/
def sumViews (s : ServerState) : Nat := (s.videos.map (fun v => v.views)).sum

/-- The favorites of a user, when the user exists. -/
def userFavs (s : ServerState) (email : String) : Option (List String) :=
  (s.users.find? (fun u => u.email == email)).map (fun u => u.favorites)

/-- Membership of a video reference in a user's favorites (false when the
user does not exist). -/
def favMem (s : ServerState) (email x : String) : Bool :=
  match userFavs s email with
  | some l => l.contains x
  | none => false

/-- Iterated toggling of the same user-video pair. -/
def toggleIter (k : Nat) (s : ServerState) (u v : String) : ServerState :=
  match k with
  | 0 => s
  | k + 1 => toggleIter k (toggleFavorite s u v).2 u v

/-- Iterated flip at the favorites-list level. -/
def toggleListIter (k : Nat) (l : List String) (v : String) : List String :=
  match k with
  | 0 => l
  | k + 1 => toggleListIter k (toggleList l v) v

/-!
Micro-step model of the view-increment of the video-fetch handler
(src/server.js lines 241-243).  The handler reads the stored counter into a
local document (`findById`), then writes back the local value plus one
(`save`); between the two awaits other handlers may run.  A call `i` is
therefore two atomic micro-operations: a read of the shared counter into
call i's local register, and a write of register value plus one back to the
shared counter.
-/

/-- One atomic micro-operation of a view-increment call. -/
inductive MicroOp where
  | readStep (i : Nat)
  | writeStep (i : Nat)
deriving DecidableEq

/-- Shared counter plus the local registers of the calls. -/
def microStep (st : Nat × (Nat → Nat)) (op : MicroOp) : Nat × (Nat → Nat) :=
  match op with
  | .readStep i => (st.1, fun j => if j = i then st.1 else st.2 j)
  | .writeStep i => (st.2 i + 1, st.2)

/-- The shared counter after running a schedule from counter 0. -/
def finalCounter (sch : List MicroOp) : Nat :=
  (sch.foldl microStep (0, fun _ => 0)).1

/-- A schedule is a valid interleaving of n view-increment calls when every
call below n reads exactly once, writes exactly once, reads before it
writes, and no other call appears. -/
def isValidSchedule (n : Nat) (sch : List MicroOp) : Bool :=
  (List.range n).all (fun i =>
    sch.count (MicroOp.readStep i) == 1 &&
    sch.count (MicroOp.writeStep i) == 1 &&
    decide (sch.indexOf (MicroOp.readStep i) < sch.indexOf (MicroOp.writeStep i))) &&
  sch.all (fun op => match op with
    | .readStep i => decide (i < n)
    | .writeStep i => decide (i < n))

/-- The interleaving in which both calls read before either writes. -/
def lostUpdateSchedule : List MicroOp :=
  [.readStep 0, .readStep 1, .writeStep 0, .writeStep 1]

/-- The fully sequential schedule: each call's read immediately followed by
its write. -/
def seqSchedule (n : Nat) : List MicroOp :=
  (List.range n).foldr
    (fun i acc => MicroOp.readStep i :: MicroOp.writeStep i :: acc) []

/-- A concrete user for evaluating theorems on explicit inputs. -/
def demoUser : User := ⟨"a@b.c", "pw", "user", ["5"]⟩

/-- A concrete state holding one user and no videos. -/
def demoState : ServerState := { initState with users := [demoUser] }

/-- A concrete video for evaluating theorems on explicit inputs. -/
def demoVideo : Video := ⟨"5", "show", "news", "f.mp4", "video/mp4", [1, 2, 3], 0⟩

/-- A concrete state holding one video and no users. -/
def demoState2 : ServerState := { initState with videos := [demoVideo] }

/-!
Helper lemmas shared by the claim theorems.
-/

theorem any_eq_find?_isSome {α : Type} (p : α → Bool) (l : List α) :
    l.any p = (List.find? p l).isSome := by
  induction l with
  | nil => rfl
  | cons x xs ih =>
      by_cases h : p x = true <;> simp [List.find?_cons, h, ih]

theorem updateFirst_find? {α : Type} (p : α → Bool) (f : α → α)
    (hf : ∀ x, p x = true → p (f x) = true) (l : List α) :
    List.find? p (updateFirst p f l) = (List.find? p l).map f := by
  induction l with
  | nil => rfl
  | cons x xs ih =>
      by_cases h : p x = true
      · simp [updateFirst, h, List.find?_cons, hf x h]
      · simp [updateFirst, h, List.find?_cons, ih]

theorem updateHistory_not_mem (h : List HistEntry) (d : String)
    (hd : ∀ e ∈ h, e.date ≠ d) : updateHistory h d = h ++ [⟨d, 1⟩] := by
  induction h with
  | nil => rfl
  | cons e rest ih =>
      have he : e.date ≠ d := hd e (by simp)
      simp only [updateHistory, beq_iff_eq, if_neg he, List.cons_append,
        List.cons.injEq, true_and]
      exact ih (fun x hx => hd x (by simp [hx]))

theorem updateHistory_found (pre post : List HistEntry) (d : String) (c : Nat)
    (hpre : ∀ e ∈ pre, e.date ≠ d) :
    updateHistory (pre ++ ⟨d, c⟩ :: post) d = pre ++ ⟨d, c + 1⟩ :: post := by
  induction pre with
  | nil => simp [updateHistory]
  | cons e rest ih =>
      have he : e.date ≠ d := hpre e (by simp)
      simp only [List.cons_append, updateHistory, beq_iff_eq, if_neg he,
        List.cons.injEq, true_and]
      exact ih (fun x hx => hpre x (by simp [hx]))

theorem updateHistory_dates (h : List HistEntry) (d : String) :
    (updateHistory h d).map (fun e => e.date) =
      if d ∈ h.map (fun e => e.date) then h.map (fun e => e.date)
      else h.map (fun e => e.date) ++ [d] := by
  induction h with
  | nil => simp [updateHistory]
  | cons e rest ih =>
      by_cases he : e.date = d
      · simp [updateHistory, he]
      · have hne : d ≠ e.date := fun hc => he hc.symm
        simp only [updateHistory, beq_iff_eq, if_neg he, List.map_cons,
          List.mem_cons, hne, false_or, ih]
        by_cases hm : d ∈ rest.map (fun e => e.date) <;> simp [hm]

theorem updateHistory_nodup (h : List HistEntry) (d : String)
    (hn : (h.map (fun e => e.date)).Nodup) :
    ((updateHistory h d).map (fun e => e.date)).Nodup := by
  rw [updateHistory_dates]
  by_cases hm : d ∈ h.map (fun e => e.date)
  · simpa [hm] using hn
  · simp only [hm, if_false]
    rw [List.nodup_append]
    refine ⟨hn, List.nodup_singleton d, ?_⟩
    intro x hx hxd
    simp only [List.mem_singleton] at hxd
    exact hm (hxd ▸ hx)

theorem filter_date_of_not_mem (h : List HistEntry) (d : String)
    (hd : ∀ e ∈ h, e.date ≠ d) :
    h.filter (fun e => e.date == d) = [] := by
  rw [List.filter_eq_nil_iff]
  intro e he
  simp [hd e he]

theorem filter_date_append (h : List HistEntry) (x : HistEntry) (d : String)
    (hd : ∀ e ∈ h, e.date ≠ d) (hx : x.date = d) :
    (h ++ [x]).filter (fun e => e.date == d) = [x] := by
  rw [List.filter_append, filter_date_of_not_mem h d hd]
  simp [hx]

theorem mem_toggleList (l : List String) (v x : String) :
    x ∈ toggleList l v ↔ (if x = v then v ∉ l else x ∈ l) := by
  by_cases hv : v ∈ l
  · have hc : l.contains v = true := by simpa [List.elem_iff] using hv
    by_cases hx : x = v
    · subst hx
      simp [toggleList, hc, hv, List.mem_filter]
    · simp [toggleList, hc, hv, hx, List.mem_filter, bne_iff_ne]
  · have hc : l.contains v = false := by
      simp only [Bool.eq_false_iff, ne_eq]
      intro hcc
      exact hv (by simpa [List.elem_iff] using hcc)
    by_cases hx : x = v
    · subst hx
      simp [toggleList, hc, hv]
    · simp [toggleList, hc, hv, hx]

theorem contains_toggleList (l : List String) (v x : String) :
    (toggleList l v).contains x =
      (if x = v then !(l.contains v) else l.contains x) := by
  rw [Bool.eq_iff_iff]
  by_cases hx : x = v <;> by_cases hv : v ∈ l <;>
    simp_all [mem_toggleList, List.elem_iff]

theorem toggleListIter_contains_self (k : Nat) (l : List String) (v : String) :
    (toggleListIter k l v).contains v = xor (l.contains v) (k % 2 == 1) := by
  induction k generalizing l with
  | zero => simp [toggleListIter]
  | succ k ih =>
      rw [toggleListIter, ih, contains_toggleList]
      simp only [if_pos rfl]
      rcases Nat.mod_two_eq_zero_or_one k with hk | hk
      · have hk1 : (k + 1) % 2 = 1 := by omega
        simp [hk, hk1, Bool.xor_comm]
      · have hk1 : (k + 1) % 2 = 0 := by omega
        cases hc : l.contains v <;> simp [hk, hk1]

theorem toggleListIter_two (l : List String) (v x : String) :
    (toggleListIter 2 l v).contains x = l.contains x := by
  show (toggleList (toggleList l v) v).contains x = l.contains x
  by_cases hx : x = v <;> simp [mem_toggleList, hx]

theorem userFavs_some (s : ServerState) (u : String) (favs : List String)
    (h : userFavs s u = some favs) :
    ∃ u0, s.users.find? (fun w => w.email == u) = some u0 ∧
      u0.favorites = favs := by
  unfold userFavs at h
  rcases Option.map_eq_some'.mp h with ⟨u0, h0, h1⟩
  exact ⟨u0, h0, h1⟩

theorem userFavs_toggle (s : ServerState) (u v : String) (favs : List String)
    (h : userFavs s u = some favs) :
    userFavs (toggleFavorite s u v).2 u = some (toggleList favs v) := by
  rcases userFavs_some s u favs h with ⟨u0, h0, h1⟩
  unfold toggleFavorite
  rw [h0]
  unfold userFavs
  simp only
  rw [updateFirst_find? (fun w => w.email == u)
    (fun w => { w with favorites := toggleList w.favorites v })
    (fun x hx => hx) s.users, h0]
  simp [h1]

theorem userFavs_toggleIter (k : Nat) (s : ServerState) (u v : String)
    (favs : List String) (h : userFavs s u = some favs) :
    userFavs (toggleIter k s u v) u = some (toggleListIter k favs v) := by
  induction k generalizing s favs with
  | zero => simpa [toggleIter, toggleListIter] using h
  | succ k ih =>
      rw [toggleIter, toggleListIter]
      exact ih (toggleFavorite s u v).2 (toggleList favs v)
        (userFavs_toggle s u v favs h)

theorem signup_success (s : ServerState) (email pw role d : String)
    (hv : validateInput email pw = true)
    (hf : s.users.any (fun u => u.email == email) = false) :
    signup s email pw role d =
      (SignupResult.ok role,
       { s with
           users := s.users ++ [⟨email, bcryptHash pw, role, []⟩],
           stats := ⟨s.stats.totalSignups + 1, s.stats.totalViews,
             updateHistory s.stats.signupHistory d⟩ }) := by
  simp [signup, hv, hf]

theorem applyOp_totalViews (s : ServerState) (op : Op) :
    (applyOp s op).stats.totalViews =
      s.stats.totalViews + (if isViewSuccess s op then 1 else 0) := by
  cases op with
  | signupOp e p r d =>
      simp only [applyOp, signup, isViewSuccess]
      by_cases h1 : validateInput e p = false
      · simp [h1]
      · by_cases h2 : s.users.any (fun u => u.email == e) <;> simp [h1, h2]
  | loginOp e p => simp [applyOp, isViewSuccess]
  | toggleFavOp u v =>
      simp only [applyOp, toggleFavorite, isViewSuccess]
      cases h : s.users.find? (fun w => w.email == u) <;> simp [h]
  | uploadOp n c fn ct pl => simp [applyOp, uploadVideo, isViewSuccess]
  | listVidsOp f =>
      cases f <;> simp [applyOp, listVideosOp, isViewSuccess]
  | fetchVidOp id =>
      simp only [applyOp, fetchVideo, isViewSuccess, any_eq_find?_isSome]
      cases h : s.videos.find? (fun v => v._id == id) <;> simp [h]
  | homepageOp => simp [applyOp, recordHomepageView, isViewSuccess]
  | getStatsOp => simp [applyOp, isViewSuccess]

theorem execTrace_totalViews (s : ServerState) (ops : List Op) :
    (execTrace s ops).stats.totalViews =
      s.stats.totalViews + viewSuccesses s ops := by
  induction ops generalizing s with
  | nil => simp [execTrace, viewSuccesses]
  | cons op rest ih =>
      rw [execTrace, viewSuccesses, ih (applyOp s op), applyOp_totalViews]
      omega

theorem applyOp_histDates (s : ServerState) (op : Op)
    (hn : (s.stats.signupHistory.map (fun e => e.date)).Nodup) :
    ((applyOp s op).stats.signupHistory.map (fun e => e.date)).Nodup := by
  cases op with
  | signupOp e p r d =>
      simp only [applyOp, signup]
      by_cases h1 : validateInput e p = false
      · simpa [h1] using hn
      · by_cases h2 : s.users.any (fun u => u.email == e)
        · simpa [h1, h2] using hn
        · simp only [h1, h2, if_false, Bool.false_eq_true]
          exact updateHistory_nodup _ d hn
  | loginOp e p => simpa [applyOp] using hn
  | toggleFavOp u v =>
      simp only [applyOp, toggleFavorite]
      cases h : s.users.find? (fun w => w.email == u) <;> simpa [h] using hn
  | uploadOp n c fn ct pl => simpa [applyOp, uploadVideo] using hn
  | listVidsOp f => cases f <;> simpa [applyOp, listVideosOp] using hn
  | fetchVidOp id =>
      simp only [applyOp, fetchVideo]
      cases h : s.videos.find? (fun v => v._id == id) <;> simpa [h] using hn
  | homepageOp => simpa [applyOp, recordHomepageView] using hn
  | getStatsOp => simpa [applyOp] using hn

theorem execTrace_histDates (s : ServerState) (ops : List Op)
    (hn : (s.stats.signupHistory.map (fun e => e.date)).Nodup) :
    ((execTrace s ops).stats.signupHistory.map (fun e => e.date)).Nodup := by
  induction ops generalizing s with
  | nil => simpa [execTrace] using hn
  | cons op rest ih =>
      rw [execTrace]
      exact ih (applyOp s op) (applyOp_histDates s op hn)

theorem seq_foldr_counter (l : List Nat) :
    ∀ (c : Nat) (r : Nat → Nat),
    ((l.foldr (fun i acc => MicroOp.readStep i :: MicroOp.writeStep i :: acc)
        []).foldl microStep (c, r)).1 = c + l.length := by
  induction l with
  | nil => intro c r; simp
  | cons i rest ih =>
      intro c r
      have h1 : microStep (c, r) (MicroOp.readStep i) =
          (c, fun j => if j = i then c else r j) := rfl
      have h2 : microStep (c, fun j => if j = i then c else r j)
          (MicroOp.writeStep i) =
          (c + 1, fun j => if j = i then c else r j) := by
        simp [microStep]
      rw [List.foldr_cons, List.foldl_cons, h1, List.foldl_cons, h2, ih]
      simp only [List.length_cons]
      omega

/-!
Claim theorems.
-/

/-- C2: fetching (recording a view of) a video whose identifier does not
exist in the store answers notFound and changes nothing: no Stats field and
no video's view counter moves, since the whole state is returned intact. -/
theorem fetchVideo_missing_notFound (s : ServerState) (id : String)
    (h : ∀ v ∈ s.videos, v._id ≠ id) :
    fetchVideo s id = (FetchResult.notFound, s) := by
  have hf : s.videos.find? (fun v => v._id == id) = none := by
    rw [List.find?_eq_none]
    intro v hv
    simp [h v hv]
  simp [fetchVideo, hf]

theorem fetchVideo_missing_notFound_witness :
    (∀ v ∈ initState.videos, v._id ≠ "7") ∧
      fetchVideo initState "7" = (FetchResult.notFound, initState) :=
  ⟨by decide, fetchVideo_missing_notFound initState "7" (by decide)⟩

/-- C3: a successful upload followed immediately by a fetch of the assigned
identifier serves back exactly the submitted payload, byte for byte, and
exactly the submitted content type.  The hypothesis states that the fresh
identifier really is fresh, which holds in every reachable store. -/
theorem upload_fetch_roundtrip (s : ServerState)
    (name cat fn ct : String) (payload : List Nat)
    (hfresh : ∀ v ∈ s.videos, v._id ≠ genId s.nextId) :
    (fetchVideo (uploadVideo s name cat fn ct payload).2
        (uploadVideo s name cat fn ct payload).1).1 =
      FetchResult.ok ct payload := by
  have h1 : s.videos.find? (fun v => v._id == genId s.nextId) = none := by
    rw [List.find?_eq_none]
    intro v hv
    simp [hfresh v hv]
  simp [uploadVideo, fetchVideo, List.find?_append, h1]

theorem upload_fetch_roundtrip_witness :
    (∀ v ∈ initState.videos, v._id ≠ genId initState.nextId) ∧
      (fetchVideo (uploadVideo initState "show" "news" "f.mp4" "video/mp4"
          [9, 8, 7]).2
        (uploadVideo initState "show" "news" "f.mp4" "video/mp4" [9, 8, 7]).1).1 =
        FetchResult.ok "video/mp4" [9, 8, 7] :=
  ⟨by decide, upload_fetch_roundtrip initState "show" "news" "f.mp4"
    "video/mp4" [9, 8, 7] (by decide)⟩

/-- C5 counterexample: at the explicit state with no users at all, toggling
answers the generic 500 server error, not notFound, so the claim that a
missing user yields NotFound is false on the code. -/
theorem toggleFavorite_missing_user_counterexample :
    initState.users = [] ∧
    toggleFavorite initState "a@b.c" "5" =
      (ToggleResult.serverError, initState) ∧
    ToggleResult.serverError ≠ ToggleResult.notFound := by
  exact ⟨rfl, rfl, by decide⟩

/-- C5 amended: toggling succeeds whenever the user exists, with no
requirement whatsoever on the video identifier (the video store is never
consulted and is left unchanged); when the user does not exist the call
fails with the generic 500 server error, not NotFound, and the state is
untouched. -/
theorem toggleFavorite_error_amended (s : ServerState) (u v : String) :
    (∀ favs, userFavs s u = some favs →
      (toggleFavorite s u v).1 = ToggleResult.ok (toggleList favs v) ∧
      userFavs (toggleFavorite s u v).2 u = some (toggleList favs v) ∧
      (toggleFavorite s u v).2.videos = s.videos ∧
      (toggleFavorite s u v).2.stats = s.stats) ∧
    (userFavs s u = none →
      toggleFavorite s u v = (ToggleResult.serverError, s)) := by
  constructor
  · intro favs h
    rcases userFavs_some s u favs h with ⟨u0, h0, h1⟩
    refine ⟨?_, userFavs_toggle s u v favs h, ?_, ?_⟩
    · simp [toggleFavorite, h0, h1]
    · simp [toggleFavorite, h0]
    · simp [toggleFavorite, h0]
  · intro h
    have h0 : s.users.find? (fun w => w.email == u) = none := by
      unfold userFavs at h
      exact Option.map_eq_none'.mp h
    simp [toggleFavorite, h0]

theorem toggleFavorite_error_amended_witness :
    (toggleFavorite demoState "a@b.c" "99").1 =
      ToggleResult.ok (toggleList ["5"] "99") ∧
    toggleFavorite initState "x@y.z" "5" =
      (ToggleResult.serverError, initState) :=
  ⟨((toggleFavorite_error_amended demoState "a@b.c" "99").1 ["5"]
      (by decide)).1,
   (toggleFavorite_error_amended initState "x@y.z" "5").2 (by decide)⟩

/-- C10: when signup fails to persist the new user, the failure is reported
and the whole state, the Stats singleton included, is returned unchanged:
the duplicate-email failure answers 500 with no mutation, and more generally
every non-ok outcome leaves the state exactly as it was. -/
theorem recordSignup_failure_leaves_stats (s : ServerState)
    (email pw role d : String) :
    (validateInput email pw = true →
      s.users.any (fun u => u.email == email) = true →
      signup s email pw role d = (SignupResult.serverError, s)) ∧
    (((signup s email pw role d).1 = SignupResult.badRequest ∨
      (signup s email pw role d).1 = SignupResult.serverError) →
      (signup s email pw role d).2 = s) := by
  constructor
  · intro hv hdup
    simp [signup, hv, hdup]
  · intro hfail
    by_cases h1 : validateInput email pw = false
    · simp [signup, h1]
    · by_cases h2 : s.users.any (fun u => u.email == email)
      · simp [signup, h1, h2]
      · exfalso
        rcases hfail with hf | hf <;> simp [signup, h1, h2] at hf

theorem recordSignup_failure_leaves_stats_witness :
    signup demoState "a@b.c" "secret1" "user" "2025-01-01" =
      (SignupResult.serverError, demoState) :=
  (recordSignup_failure_leaves_stats demoState "a@b.c" "secret1" "user"
    "2025-01-01").1 (by decide) (by decide)

/-- C4: for an existing user, toggling the same video twice in succession
restores the favorites set (membership of every identifier is as before),
and after k successive toggles the membership of the toggled identifier is
the initial membership XORed with the parity of k. -/
theorem toggleFavorite_double_toggle (s : ServerState) (u v : String)
    (favs : List String) (h : userFavs s u = some favs) :
    (∀ x, favMem (toggleIter 2 s u v) u x = favMem s u x) ∧
    (∀ k, favMem (toggleIter k s u v) u v =
      xor (favMem s u v) (k % 2 == 1)) := by
  constructor
  · intro x
    have h2 := userFavs_toggleIter 2 s u v favs h
    unfold favMem
    rw [h, h2]
    exact toggleListIter_two favs v x
  · intro k
    have hk := userFavs_toggleIter k s u v favs h
    unfold favMem
    rw [h, hk]
    exact toggleListIter_contains_self k favs v

theorem toggleFavorite_double_toggle_witness :
    favMem (toggleIter 2 demoState "a@b.c" "5") "a@b.c" "5" =
      favMem demoState "a@b.c" "5" ∧
    favMem (toggleIter 3 demoState "a@b.c" "5") "a@b.c" "5" =
      xor (favMem demoState "a@b.c" "5") (3 % 2 == 1) :=
  ⟨(toggleFavorite_double_toggle demoState "a@b.c" "5" ["5"]
      (by decide)).1 "5",
   (toggleFavorite_double_toggle demoState "a@b.c" "5" ["5"]
      (by decide)).2 3⟩

/-- C6: starting from the empty Stats singleton, every state reachable by a
sequence of engine operations has at most one signup-histogram entry per
calendar date (the dates are pairwise distinct), and every single operation
preserves that invariant. -/
theorem signupHistory_nodup_invariant :
    (∀ ops : List Op,
      ((execTrace initState ops).stats.signupHistory.map
        (fun e => e.date)).Nodup) ∧
    (∀ (s : ServerState) (op : Op),
      (s.stats.signupHistory.map (fun e => e.date)).Nodup →
      ((applyOp s op).stats.signupHistory.map (fun e => e.date)).Nodup) := by
  constructor
  · intro ops
    exact execTrace_histDates initState ops (by simp [initState])
  · exact applyOp_histDates

theorem signupHistory_nodup_invariant_witness :
    ((applyOp demoState2
        (Op.signupOp "a@b.c" "secret1" "user" "2025-01-01")).stats.signupHistory.map
      (fun e => e.date)).Nodup :=
  (signupHistory_nodup_invariant).2 demoState2
    (Op.signupOp "a@b.c" "secret1" "user" "2025-01-01") (by decide)

/-- C7: each successful view-recording call adds exactly one to totalViews:
over any operation sequence totalViews grows by exactly the number of
successful view recordings; a successful per-video fetch adds one to
totalViews and one to that video's own counter; a homepage visit adds one
to totalViews and touches no video; and totalViews can differ from the sum
of the per-video counters. -/
theorem totalViews_counts_successful_views :
    (∀ (s : ServerState) (ops : List Op),
      (execTrace s ops).stats.totalViews =
        s.stats.totalViews + viewSuccesses s ops) ∧
    (∀ (s : ServerState) (id : String) (v : Video),
      s.videos.find? (fun w => w._id == id) = some v →
      (fetchVideo s id).2.stats.totalViews = s.stats.totalViews + 1 ∧
      videoViews (fetchVideo s id).2 id = some (v.views + 1)) ∧
    (∀ s : ServerState,
      (recordHomepageView s).stats.totalViews = s.stats.totalViews + 1 ∧
      (recordHomepageView s).videos = s.videos) ∧
    (∃ ops : List Op,
      (execTrace initState ops).stats.totalViews ≠
        sumViews (execTrace initState ops)) := by
  refine ⟨execTrace_totalViews, ?_, fun s => ⟨rfl, rfl⟩,
    ⟨[Op.homepageOp], by decide⟩⟩
  intro s id v h
  constructor
  · simp [fetchVideo, h]
  · unfold videoViews fetchVideo
    rw [h]
    simp only
    rw [updateFirst_find? (fun w => w._id == id)
      (fun w => { w with views := w.views + 1 }) (fun x hx => hx) s.videos, h]
    rfl

theorem totalViews_counts_successful_views_witness :
    (fetchVideo demoState2 "5").2.stats.totalViews =
      demoState2.stats.totalViews + 1 ∧
    videoViews (fetchVideo demoState2 "5").2 "5" =
      some (demoVideo.views + 1) :=
  (totalViews_counts_successful_views).2.1 demoState2 "5" demoVideo (by decide)

/-- C1: a successful signup on calendar date d increments the first existing
histogram entry for d if one is present and otherwise appends a new entry
for d with count 1, incrementing totalSignups by one; consequently two
successful signups on the same fresh date leave exactly one entry for that
date with count 2 and totalSignups up by 2, and two successful signups on
two different fresh dates leave two distinct entries, each with count 1. -/
theorem recordSignup_histogram_behavior :
    (∀ (s : ServerState) (email pw role d : String),
      validateInput email pw = true →
      s.users.any (fun u => u.email == email) = false →
      ((∀ e ∈ s.stats.signupHistory, e.date ≠ d) →
        (signup s email pw role d).2.stats.signupHistory =
          s.stats.signupHistory ++ [⟨d, 1⟩]) ∧
      (∀ pre c post, s.stats.signupHistory = pre ++ ⟨d, c⟩ :: post →
        (∀ e ∈ pre, e.date ≠ d) →
        (signup s email pw role d).2.stats.signupHistory =
          pre ++ ⟨d, c + 1⟩ :: post) ∧
      (signup s email pw role d).2.stats.totalSignups =
        s.stats.totalSignups + 1) ∧
    (∀ (s : ServerState) (e1 p1 r1 e2 p2 r2 d : String),
      validateInput e1 p1 = true → validateInput e2 p2 = true →
      s.users.any (fun u => u.email == e1) = false →
      s.users.any (fun u => u.email == e2) = false →
      e2 ≠ e1 →
      (∀ e ∈ s.stats.signupHistory, e.date ≠ d) →
      ((signup (signup s e1 p1 r1 d).2 e2 p2 r2 d).2.stats.signupHistory.filter
          (fun e => e.date == d) = [⟨d, 2⟩]) ∧
      (signup (signup s e1 p1 r1 d).2 e2 p2 r2 d).2.stats.totalSignups =
        s.stats.totalSignups + 2) ∧
    (∀ (s : ServerState) (e1 p1 r1 e2 p2 r2 d1 d2 : String),
      validateInput e1 p1 = true → validateInput e2 p2 = true →
      s.users.any (fun u => u.email == e1) = false →
      s.users.any (fun u => u.email == e2) = false →
      e2 ≠ e1 → d1 ≠ d2 →
      (∀ e ∈ s.stats.signupHistory, e.date ≠ d1) →
      (∀ e ∈ s.stats.signupHistory, e.date ≠ d2) →
      ((signup (signup s e1 p1 r1 d1).2 e2 p2 r2 d2).2.stats.signupHistory.filter
          (fun e => e.date == d1) = [⟨d1, 1⟩]) ∧
      ((signup (signup s e1 p1 r1 d1).2 e2 p2 r2 d2).2.stats.signupHistory.filter
          (fun e => e.date == d2) = [⟨d2, 1⟩])) := by
  refine ⟨?_, ?_, ?_⟩
  · intro s email pw role d hv hf
    have h2 := signup_success s email pw role d hv hf
    refine ⟨fun hd => ?_, fun pre c post hh hpre => ?_, ?_⟩
    · rw [h2]
      exact updateHistory_not_mem _ d hd
    · rw [h2]
      show updateHistory s.stats.signupHistory d = pre ++ ⟨d, c + 1⟩ :: post
      rw [hh]
      exact updateHistory_found pre post d c hpre
    · rw [h2]
  · intro s e1 p1 r1 e2 p2 r2 d hv1 hv2 hf1 hf2 hne hd
    have hne' : e1 ≠ e2 := fun hc => hne hc.symm
    have h2 := signup_success s e1 p1 r1 d hv1 hf1
    have hh1 : (signup s e1 p1 r1 d).2.stats.signupHistory =
        s.stats.signupHistory ++ [⟨d, 1⟩] := by
      rw [h2]
      exact updateHistory_not_mem _ d hd
    have hf2' : (signup s e1 p1 r1 d).2.users.any
        (fun u => u.email == e2) = false := by
      rw [h2]
      simp [List.any_append, hf2, hne']
    have hs2 := signup_success (signup s e1 p1 r1 d).2 e2 p2 r2 d hv2 hf2'
    have h3 : (signup (signup s e1 p1 r1 d).2 e2 p2 r2 d).2.stats.signupHistory =
        updateHistory ((signup s e1 p1 r1 d).2.stats.signupHistory) d := by
      rw [hs2]
    have h4 : (signup (signup s e1 p1 r1 d).2 e2 p2 r2 d).2.stats.signupHistory =
        s.stats.signupHistory ++ [⟨d, 2⟩] := by
      rw [h3, hh1]
      exact updateHistory_found s.stats.signupHistory [] d 1 hd
    constructor
    · rw [h4]
      exact filter_date_append s.stats.signupHistory ⟨d, 2⟩ d hd rfl
    · have t1 : (signup s e1 p1 r1 d).2.stats.totalSignups =
          s.stats.totalSignups + 1 := by rw [h2]
      have t2 : (signup (signup s e1 p1 r1 d).2 e2 p2 r2 d).2.stats.totalSignups =
          (signup s e1 p1 r1 d).2.stats.totalSignups + 1 := by rw [hs2]
      rw [t2, t1]
  · intro s e1 p1 r1 e2 p2 r2 d1 d2 hv1 hv2 hf1 hf2 hne hd12 hd1 hd2
    have hne' : e1 ≠ e2 := fun hc => hne hc.symm
    have hd21 : d2 ≠ d1 := fun hc => hd12 hc.symm
    have h2 := signup_success s e1 p1 r1 d1 hv1 hf1
    have hh1 : (signup s e1 p1 r1 d1).2.stats.signupHistory =
        s.stats.signupHistory ++ [⟨d1, 1⟩] := by
      rw [h2]
      exact updateHistory_not_mem _ d1 hd1
    have hf2' : (signup s e1 p1 r1 d1).2.users.any
        (fun u => u.email == e2) = false := by
      rw [h2]
      simp [List.any_append, hf2, hne']
    have hs2 := signup_success (signup s e1 p1 r1 d1).2 e2 p2 r2 d2 hv2 hf2'
    have hfull : (signup (signup s e1 p1 r1 d1).2 e2 p2 r2 d2).2.stats.signupHistory =
        (s.stats.signupHistory ++ [⟨d1, 1⟩]) ++ [⟨d2, 1⟩] := by
      have h3 : (signup (signup s e1 p1 r1 d1).2 e2 p2 r2 d2).2.stats.signupHistory =
          updateHistory ((signup s e1 p1 r1 d1).2.stats.signupHistory) d2 := by
        rw [hs2]
      rw [h3, hh1]
      apply updateHistory_not_mem
      intro e he
      rcases List.mem_append.mp he with he | he
      · exact hd2 e he
      · simp only [List.mem_singleton] at he
        subst he
        exact hd12
    constructor
    · rw [hfull, List.filter_append, List.filter_append,
        filter_date_of_not_mem s.stats.signupHistory d1 hd1]
      simp [hd21]
    · rw [hfull, List.filter_append, List.filter_append,
        filter_date_of_not_mem s.stats.signupHistory d2 hd2]
      simp [hd12]

theorem recordSignup_histogram_behavior_witness :
    ((signup (signup initState "a@b.c" "secret1" "user" "2025-01-01").2
        "d@e.f" "secret1" "admin" "2025-01-01").2.stats.signupHistory.filter
      (fun e => e.date == "2025-01-01") = [⟨"2025-01-01", 2⟩]) ∧
    (signup (signup initState "a@b.c" "secret1" "user" "2025-01-01").2
        "d@e.f" "secret1" "admin" "2025-01-01").2.stats.totalSignups =
      initState.stats.totalSignups + 2 :=
  (recordSignup_histogram_behavior).2.1 initState "a@b.c" "secret1" "user"
    "d@e.f" "secret1" "admin" "2025-01-01" (by decide) (by decide) (by decide)
    (by decide) (by decide) (by decide)

/-- C8 counterexample: the listing projection selects the fields filename,
podcastName and the identifier, so the returned records do not carry the
category field the claim requires; at the explicit one-video store the
returned record is exactly identifier, filename and podcast name. -/
theorem listVideos_fields_counterexample :
    ("category" ∈ specListFields) ∧ ("category" ∉ listProjectionFields) ∧
    listProjectionFields ≠ specListFields ∧
    (listVideosOp demoState2 none).1 = [⟨"5", "f.mp4", "show"⟩] := by
  exact ⟨by decide, by decide, by decide, by decide⟩

/-- C8 amended: listing returns one record per matching video carrying
exactly the fields identifier, filename and podcastName (never the binary
payload and not the category field), restricted to the requested category
when a filter is supplied, and mutates nothing. -/
theorem listVideos_metadata_amended (s : ServerState) (f : Option String) :
    (listVideosOp s f).2 = s ∧
    (∀ item, item ∈ (listVideosOp s f).1 ↔
      ∃ v, v ∈ s.videos ∧ (f = none ∨ f = some v.category) ∧
        item = projectVideo v) ∧
    (listVideosOp s f).1.length =
      (match f with
       | none => s.videos
       | some c => s.videos.filter (fun v => v.category == c)).length := by
  cases f with
  | none =>
      refine ⟨rfl, ?_, by simp [listVideosOp]⟩
      intro item
      simp [listVideosOp, List.mem_map, eq_comm]
  | some c =>
      refine ⟨rfl, ?_, by simp [listVideosOp]⟩
      intro item
      simp only [listVideosOp, List.mem_map, List.mem_filter]
      constructor
      · rintro ⟨v, ⟨hv, hc⟩, rfl⟩
        have hcc : v.category = c := by simpa using hc
        exact ⟨v, hv, Or.inr (by rw [hcc]), rfl⟩
      · rintro ⟨v, hv, hc, rfl⟩
        rcases hc with hc | hc
        · cases hc
        · have hcc : c = v.category := Option.some.inj hc
          exact ⟨v, ⟨hv, by simp [hcc]⟩, rfl⟩

/-- C9 counterexample: the view increment is a read step followed by a
separate write step, so the interleaving of two calls in which both read
before either writes is a valid schedule whose final counter is 1, not 2:
lost updates occur and the claim fails for arbitrary interleavings. -/
theorem concurrent_recordView_counterexample :
    isValidSchedule 2 lostUpdateSchedule = true ∧
    finalCounter lostUpdateSchedule = 1 ∧
    ¬ (∀ n, n ≤ 1000 → ∀ sch, isValidSchedule n sch = true →
        finalCounter sch = n) := by
  refine ⟨by decide, by decide, fun h => ?_⟩
  have h2 := h 2 (by omega) lostUpdateSchedule (by decide)
  rw [show finalCounter lostUpdateSchedule = 1 from by decide] at h2
  exact absurd h2 (by decide)

/-- C9 amended: when the N view-recording calls run serialized, each call's
read immediately followed by its own write, the final counter from 0 is
exactly N; only under interleaving of the read and write steps can updates
be lost. -/
theorem sequential_recordView_amended (n : Nat) :
    finalCounter (seqSchedule n) = n := by
  unfold finalCounter seqSchedule
  rw [seq_foldr_counter]
  simp
